import Mathlib

/-!
Verification of the Temporal Classification & Incremental Fetch Engine of
`fetch_latest.py` (immigration/labor dataset fetcher).

The development shallowly embeds the relevant Python functions:

* the incremental manifest (`load_manifest`, `is_file_in_manifest`, the
  success-recording step of `handle_uscis_employment_data`),
* the manifest persistence operations (`save_manifest_incremental` and the
  end-of-run write in `main`), modelled as lists of primitive filesystem
  operations under a crash semantics,
* the date extractor `extract_date_from_text` with its five regex patterns,
  modelled by hand-written scanners that follow Python `re.search`
  semantics (leftmost match, greedy/lazy quantifiers, ASCII word
  boundaries) for exactly the regexes appearing in the source,
* the recency window test `is_within_months` and the link filter
  `pick_recent_links`, over a verified proleptic-Gregorian calendar
  (ordinal arithmetic as in CPython's `datetime.toordinal`).

Python dictionaries are modelled as association lists with
insert-or-overwrite update, `None`-able strings as `Option String`, and
fallible parsing as an enumerated input.
-/

set_option autoImplicit false

namespace Fetch

/--
Calendar point produced by date extraction, modelling a CPython
`datetime.datetime(year, month, day)` value (the extractor always builds
midnight timestamps, so the time-of-day components are omitted). CPython
additionally requires `1 ≤ year ≤ 9999` and raises `ValueError` outside
that range; constructions outside it are outside the scope of this model
and theorems carry the corresponding side conditions.
-/
structure Date where
  year : Nat
  month : Nat
  day : Nat
deriving DecidableEq, Repr

/-! ### Association lists (model of Python `dict` keyed by strings) -/

/-- Lookup in an association list: first binding wins (Python dicts have
unique keys, which `updateAssoc` preserves). -/
def lookupAssoc {α : Type} : List (String × α) → String → Option α
  | [], _ => none
  | (k, v) :: rest, key => if k = key then some v else lookupAssoc rest key

/-- Dictionary assignment `d[key] = v`: overwrite in place if the key is
present, otherwise append the new binding. -/
def updateAssoc {α : Type} : List (String × α) → String → α → List (String × α)
  | [], key, v => [(key, v)]
  | (k, w) :: rest, key, v =>
    if k = key then (k, v) :: rest else (k, w) :: updateAssoc rest key v

/-- Remove a key from an association list (used by `rename`, which unlinks
its source path). -/
def removeAssoc {α : Type} : List (String × α) → String → List (String × α)
  | [], _ => []
  | (k, v) :: rest, key => if k = key then rest else (k, v) :: removeAssoc rest key

theorem lookupAssoc_updateAssoc_self {α : Type} (l : List (String × α)) (k : String) (v : α) :
    lookupAssoc (updateAssoc l k v) k = some v := by
  induction l with
  | nil => simp [updateAssoc, lookupAssoc]
  | cons hd tl ih =>
    obtain ⟨k', v'⟩ := hd
    by_cases h : k' = k <;> simp [updateAssoc, lookupAssoc, h, ih]

theorem lookupAssoc_updateAssoc_ne {α : Type} (l : List (String × α)) (k k' : String) (v : α)
    (h : k ≠ k') : lookupAssoc (updateAssoc l k v) k' = lookupAssoc l k' := by
  induction l with
  | nil => simp [updateAssoc, lookupAssoc, h]
  | cons hd tl ih =>
    obtain ⟨k'', v''⟩ := hd
    by_cases h2 : k'' = k
    · subst h2; simp [updateAssoc, lookupAssoc, h]
    · simp only [updateAssoc, if_neg h2, lookupAssoc]
      by_cases h3 : k'' = k' <;> simp [h3, ih]

/-! ### Manifest data model

A manifest entry is the JSON record appended by handlers; all fields the
handlers write are strings or `null`, modelled as `Option String` (a
missing key behaves like `null` for every read the engine performs, so
both are `none`). -/

structure Entry where
  group : Option String := none
  name : Option String := none
  source_url : Option String := none
  local_path : Option String := none
  detected_date : Option String := none
  downloaded_at : Option String := none
  method : Option String := none
  status : Option String := none
  notes : Option String := none
  hash : Option String := none
deriving DecidableEq, Repr

/-- In-memory manifest dictionary: the `entries` list from the parsed JSON
plus the derived `files_by_url` index installed by `load_manifest`. -/
structure Manifest where
  entries : List Entry
  files_by_url : List (String × Entry)
deriving DecidableEq, Repr

/-- Outcome of reading and JSON-parsing the `_manifest.json` file:
the file may be absent, present but unparseable (any exception in the
`try` block of `load_manifest`), or parsed to an entry list (the code
reads `manifest.get('entries', [])`, so a missing `entries` key is the
empty list). -/
inductive ManifestFile where
  | missing
  | corrupt
  | parsed (entries : List Entry)
deriving DecidableEq, Repr

/-- Index construction loop of `load_manifest`
(src/fetch_latest.py:74-78): keep an entry iff its `source_url` is truthy
(present and nonempty) and its `status` equals `"success"`; later entries
for the same URL overwrite earlier ones. -/
def buildFilesByUrl (entries : List Entry) : List (String × Entry) :=
  entries.foldl
    (fun idx e =>
      match e.source_url with
      | some url => if url ≠ "" ∧ e.status = some "success" then updateAssoc idx url e else idx
      | none => idx)
    []

/-- Embeds `load_manifest` (src/fetch_latest.py:53-87). A missing file and
a file whose contents raise during parsing or indexing both produce the
empty structure `{"entries": [], "files_by_url": {}}`; a parsed file keeps
its entry list and gains the success-only URL index. The function is total:
no input is propagated as an error. -/
def load_manifest : ManifestFile → Manifest
  | .missing => ⟨[], []⟩
  | .corrupt => ⟨[], []⟩
  | .parsed entries => ⟨entries, buildFilesByUrl entries⟩

/-- Embeds `is_file_in_manifest` (src/fetch_latest.py:90-112). The
filesystem is abstracted as the predicate `disk` telling whether a local
path currently exists (`local_path.exists()`). -/
def is_file_in_manifest (disk : String → Bool) (file_url : String) (local_path : String)
    (manifest : Manifest) : Bool :=
  match lookupAssoc manifest.files_by_url file_url with
  | none => false
  | some _ => disk local_path

/-- Embeds the success bookkeeping of `handle_uscis_employment_data`
(src/fetch_latest.py:1858-1862): append the new entry to the run's entry
list and store it in the loaded manifest's `files_by_url` index under the
downloaded URL, in the same operation. -/
def record_uscis_success (manifest : Manifest) (run_entries : List Entry) (entry : Entry)
    (file_url : String) : Manifest × List Entry :=
  ({ manifest with files_by_url := updateAssoc manifest.files_by_url file_url entry },
   run_entries ++ [entry])

/-! ### Filesystem operations and crash semantics

The two manifest persistence sites are modelled as sequences of primitive
filesystem operations. `write` is an ordinary (non-atomic) file write: a
crash while it runs can leave any prefix of the intended contents at the
target path. `rename` is POSIX `rename(2)` (`Path.replace`), which is
atomic: a crash leaves either the old or the new directory state. -/

inductive FsOp where
  | write (path content : String)
  | rename (src dst : String)
deriving DecidableEq, Repr

/-- Filesystem contents: path to file contents. -/
abbrev FsState := List (String × String)

/-- Effect of one completed operation. `rename` over a missing source is
not exercised by the modelled traces and is a no-op here. -/
def applyOp (fs : FsState) : FsOp → FsState
  | .write p c => updateAssoc fs p c
  | .rename src dst =>
    match lookupAssoc fs src with
    | some c => updateAssoc (removeAssoc fs src) dst c
    | none => fs

/-- States observable if the process crashes anywhere during an operation
sequence: before any further operation, in the middle of a `write` (the
target then holds an arbitrary prefix of the intended contents), or after
completing an operation and crashing later. `rename` has no intermediate
state. -/
inductive CrashReach : FsState → List FsOp → FsState → Prop where
  | stop (fs : FsState) (ops : List FsOp) : CrashReach fs ops fs
  | midWrite (fs : FsState) (p c c' : String) (rest : List FsOp)
      (hpre : ∃ s, c = c' ++ s) :
      CrashReach fs (.write p c :: rest) (updateAssoc fs p c')
  | step (fs fs' : FsState) (op : FsOp) (rest : List FsOp)
      (h : CrashReach (applyOp fs op) rest fs') :
      CrashReach fs (op :: rest) fs'

/-- Path of the persisted manifest (`downloads_dir / '_manifest.json'`).
The directory component is common to all paths involved and omitted. -/
def manifestFileName : String := "_manifest.json"

/-- Temporary path used by `save_manifest_incremental`
(`manifest_path.with_suffix('.json.tmp')`). -/
def tmpFileName : String := "_manifest.json.tmp"

/-- Operation sequence of `save_manifest_incremental`
(src/fetch_latest.py:115-135): serialize to the temporary file, then
rename it over the manifest path. -/
def save_manifest_incremental_ops (doc : String) : List FsOp :=
  [.write tmpFileName doc, .rename tmpFileName manifestFileName]

/-- Operation sequence of the end-of-run manifest write in `main`
(src/fetch_latest.py:2455): `manifest_path.write_text(json.dumps(...))`,
a single direct write to the manifest path with no temporary file and no
rename. -/
def main_manifest_write_ops (doc : String) : List FsOp :=
  [.write manifestFileName doc]

/-- The incremental save really is crash-safe: any state reachable by
crashing during `save_manifest_incremental` shows the manifest path either
untouched or holding the complete new document. -/
theorem save_manifest_incremental_crash_safe (doc : String) (fs fs' : FsState)
    (h : CrashReach fs (save_manifest_incremental_ops doc) fs') :
    lookupAssoc fs' manifestFileName = lookupAssoc fs manifestFileName ∨
      lookupAssoc fs' manifestFileName = some doc := by
  have hne : tmpFileName ≠ manifestFileName := by decide
  cases h with
  | stop => exact Or.inl rfl
  | midWrite _ _ _ c' _ hpre =>
    exact Or.inl (lookupAssoc_updateAssoc_ne fs tmpFileName manifestFileName c' hne)
  | step _ _ _ _ h1 =>
    cases h1 with
    | stop =>
      exact Or.inl (lookupAssoc_updateAssoc_ne fs tmpFileName manifestFileName doc hne)
    | step _ _ _ _ h2 =>
      cases h2 with
      | stop =>
        refine Or.inr ?_
        show lookupAssoc (applyOp (applyOp fs (.write tmpFileName doc))
          (.rename tmpFileName manifestFileName)) manifestFileName = some doc
        simp only [applyOp, lookupAssoc_updateAssoc_self]

/-! ### Date extraction: character classes and `re.search` semantics

`extract_date_from_text` (src/fetch_latest.py:219-304) lowercases its
input and tries five regex patterns in order. Each pattern is embedded as
a scanner that reproduces Python `re.search` on that pattern: positions
are tried left to right and the first position admitting a match wins;
greedy (`?`, `\s*`, `{1,2}`) and lazy (`.*?`) quantifiers backtrack as in
Python. The inputs of interest are ASCII; `str.lower`, `\w`, `\s`, `\d`
and `\b` are modelled on their ASCII behaviour (non-ASCII word characters
are outside the model). -/

/-- ASCII lowering of one character (model of `str.lower` on ASCII text). -/
def asciiLowerChar (c : Char) : Char :=
  if 'A' ≤ c ∧ c ≤ 'Z' then Char.ofNat (c.toNat + 32) else c

/-- ASCII lowering of a character list. -/
def asciiLower (s : List Char) : List Char := s.map asciiLowerChar

/-- Class `\d`. -/
def isDigitChar (c : Char) : Bool := '0' ≤ c ∧ c ≤ '9'

/-- Numeric value of a digit character. -/
def digitVal (c : Char) : Nat := c.toNat - '0'.toNat

/-- Class `\s` (ASCII part: space, tab, newline, carriage return,
vertical tab, form feed). -/
def isSpacePy (c : Char) : Bool :=
  c = ' ' ∨ c = '\t' ∨ c = '\n' ∨ c = '\r' ∨ c = '\x0b' ∨ c = '\x0c'

/-- Class `\w` (ASCII part: letters, digits, underscore). -/
def isWordChar (c : Char) : Bool :=
  ('a' ≤ c ∧ c ≤ 'z') ∨ ('A' ≤ c ∧ c ≤ 'Z') ∨ isDigitChar c ∨ c = '_'

/-- A word boundary `\b` holds before a word character iff the preceding
character (if any) is not a word character. All patterns below start with
a word character, so this is the only boundary test needed on the left. -/
def noWordPrev : Option Char → Bool
  | none => true
  | some c => !isWordChar c

/-- A word boundary `\b` holds after a word character iff the following
character (if any) is not a word character. -/
def noWordNext : List Char → Bool
  | [] => true
  | c :: _ => !isWordChar c

/-- Literal prefix match, returning the remaining input. -/
def stripl : List Char → List Char → Option (List Char)
  | [], s => some s
  | _ :: _, [] => none
  | c :: cs, d :: ds => if c = d then stripl cs ds else none

/-- Reads `(\d{4})`: exactly four digit characters, returning their value
and the rest of the input. -/
def fourDigits : List Char → Option (Nat × List Char)
  | a :: b :: c :: d :: rest =>
    if isDigitChar a ∧ isDigitChar b ∧ isDigitChar c ∧ isDigitChar d then
      some (digitVal a * 1000 + digitVal b * 100 + digitVal c * 10 + digitVal d, rest)
    else none
  | _ => none

/-- Generic `re.search` position scan: try the position matcher `f` (which
receives the previous character for `\b` tests) at every suffix, leftmost
first. Positions at the end of the input are not tried because every
pattern below must consume at least one character. -/
def searchPos {α : Type} (f : Option Char → List Char → Option α) :
    Option Char → List Char → Option α
  | _, [] => none
  | prev, c :: rest =>
    match f prev (c :: rest) with
    | some r => some r
    | none => searchPos f (some c) rest

/-! #### Pattern 1: month name + 4-digit year, `\b<month>[-\s]?(\d{4})\b` -/

/-- Continuation `[-\s]?(\d{4})\b` after a matched month name. The greedy
optional separator first tries to consume one hyphen/whitespace character
and falls back to the empty match (note the character class is `[-\s]`:
an underscore is not a separator). -/
def monthTail (rest : List Char) : Option Nat :=
  let noSep : Option Nat :=
    match fourDigits rest with
    | some (y, after) => if noWordNext after then some y else none
    | none => none
  match rest with
  | c :: rest2 =>
    if c = '-' ∨ isSpacePy c then
      match fourDigits rest2 with
      | some (y, after) => if noWordNext after then some y else noSep
      | none => noSep
    else noSep
  | [] => noSep

/-- Search for `\b<name>[-\s]?(\d{4})\b`, returning the year. -/
def monthSearchOne (name : List Char) (t : List Char) : Option Nat :=
  searchPos
    (fun prev s =>
      if noWordPrev prev then
        match stripl name s with
        | some after => monthTail after
        | none => none
      else none)
    none t

/-- The `month_names` dictionary of `extract_date_from_text`, in its
Python insertion (= iteration) order. -/
def monthNameTable : List (List Char × Nat) :=
  [("january".toList, 1), ("jan".toList, 1), ("february".toList, 2), ("feb".toList, 2),
   ("march".toList, 3), ("mar".toList, 3), ("april".toList, 4), ("apr".toList, 4),
   ("may".toList, 5), ("june".toList, 6), ("jun".toList, 6),
   ("july".toList, 7), ("jul".toList, 7), ("august".toList, 8), ("aug".toList, 8),
   ("september".toList, 9), ("sep".toList, 9), ("october".toList, 10), ("oct".toList, 10),
   ("november".toList, 11), ("nov".toList, 11), ("december".toList, 12), ("dec".toList, 12)]

/-- The pattern-1 loop: months are tried in dictionary order and the
first month whose regex matches anywhere in the text wins. Returns
(month number, year). -/
def monthYearSearchIn : List (List Char × Nat) → List Char → Option (Nat × Nat)
  | [], _ => none
  | (name, num) :: rest, t =>
    match monthSearchOne name t with
    | some y => some (num, y)
    | none => monthYearSearchIn rest t

/-- Pattern 1 of `extract_date_from_text` (src/fetch_latest.py:241-246). -/
def monthYearSearch (t : List Char) : Option (Nat × Nat) :=
  monthYearSearchIn monthNameTable t

/-! #### Pattern 2: `\b(\d{4})[-_](\d{1,2})\b` -/

/-- Reads `(\d{1,2})\b` greedily: two digits are preferred, with fallback
to one digit when the boundary after the second digit fails in a way the
one-digit reading repairs (it cannot, when the blocking character is
itself a digit — a word character). -/
def oneTwoDigits : List Char → Option Nat
  | a :: rest =>
    if isDigitChar a then
      match rest with
      | b :: rest2 =>
        if isDigitChar b ∧ noWordNext rest2 then some (digitVal a * 10 + digitVal b)
        else if noWordNext rest then some (digitVal a)
        else none
      | [] => some (digitVal a)
    else none
  | [] => none

/-- Pattern 2 of `extract_date_from_text` (src/fetch_latest.py:249-253),
returning (year, month) of the leftmost raw match, before the range
checks applied by the caller. -/
def yearMonthSearch (t : List Char) : Option (Nat × Nat) :=
  searchPos
    (fun prev s =>
      if noWordPrev prev then
        match fourDigits s with
        | some (y, rest) =>
          match rest with
          | c :: rest2 =>
            if c = '-' ∨ c = '_' then
              match oneTwoDigits rest2 with
              | some m => some (y, m)
              | none => none
            else none
          | [] => none
        | none => none
      else none)
    none t

/-! #### Pattern 3: fiscal year + quarter, in either order -/

/-- Greedy `\s*`: maximal munch. (Every use below is followed by a digit
or a letter, which `\s` cannot match, so no backtracking is ever
needed.) -/
def skipSpaces : List Char → List Char
  | c :: rest => if isSpacePy c then skipSpaces rest else c :: rest
  | [] => []

/-- Alternation `(?:fy|fiscal\s*year)`. The two alternatives differ at
their second character (`y` vs `i`), so at most one of them can match at
a given position and committing to the first match is faithful. -/
def fyMarker (s : List Char) : Option (List Char) :=
  match stripl "fy".toList s with
  | some rest => some rest
  | none =>
    match stripl "fiscal".toList s with
    | some rest =>
      match stripl "year".toList (skipSpaces rest) with
      | some rest2 => some rest2
      | none => none
    | none => none

/-- Lazy `.*?q(\d)`: advance as little as possible before reading a `q`
followed by a digit; `.` does not cross a newline. -/
def lazyQuarterScan : List Char → Option Nat
  | [] => none
  | c :: rest =>
    match
      (match c, rest with
       | 'q', d :: _ => if isDigitChar d then some (digitVal d) else none
       | _, _ => none)
    with
    | some q => some q
    | none => if c = '\n' then none else lazyQuarterScan rest

/-- First fiscal regex `(?:fy|fiscal\s*year)\s*(\d{4}).*?q(\d)`
(src/fetch_latest.py:256) at one position, returning (year, quarter). -/
def fy1At (s : List Char) : Option (Nat × Nat) :=
  match fyMarker s with
  | some rest =>
    match fourDigits (skipSpaces rest) with
    | some (y, rest2) =>
      match lazyQuarterScan rest2 with
      | some q => some (y, q)
      | none => none
    | none => none
  | none => none

/-- Search for the first fiscal regex (it has no word boundaries, so the
previous character is irrelevant). -/
def fy1Search (t : List Char) : Option (Nat × Nat) :=
  searchPos (fun _ s => fy1At s) none t

/-- Tail `(?:fy|fiscal\s*year)\s*(\d{4})` of the second fiscal regex,
returning the year. -/
def fyYearTail (s : List Char) : Option Nat :=
  match fyMarker s with
  | some rest =>
    match fourDigits (skipSpaces rest) with
    | some (y, _) => some y
    | none => none
  | none => none

/-- Lazy `.*?` before `fyYearTail`; `.` does not cross a newline. -/
def lazyFyScan : List Char → Option Nat
  | [] => none
  | c :: rest =>
    match fyYearTail (c :: rest) with
    | some y => some y
    | none => if c = '\n' then none else lazyFyScan rest

/-- Second fiscal regex `q(\d).*?(?:fy|fiscal\s*year)\s*(\d{4})`
(src/fetch_latest.py:258) at one position, returning (year, quarter). -/
def fy2At (s : List Char) : Option (Nat × Nat) :=
  match s with
  | 'q' :: d :: rest =>
    if isDigitChar d then
      match lazyFyScan rest with
      | some y => some (y, digitVal d)
      | none => none
    else none
  | _ => none

/-- Search for the second fiscal regex. -/
def fy2Search (t : List Char) : Option (Nat × Nat) :=
  searchPos (fun _ s => fy2At s) none t

/-- Pattern 3 of `extract_date_from_text` (src/fetch_latest.py:255-267):
the first fiscal regex is tried on the whole text, and only if it finds
no match at all is the reversed regex tried. Returns (year, quarter). -/
def fySearch (t : List Char) : Option (Nat × Nat) :=
  match fy1Search t with
  | some r => some r
  | none => fy2Search t

/-! #### Pattern 4: `\b(\d{4})[-_]?q(\d)\b` (calendar quarter) -/

/-- Tail `q(\d)\b`. -/
def qDigitTail (y : Nat) : List Char → Option (Nat × Nat)
  | 'q' :: d :: rest2 =>
    if isDigitChar d ∧ noWordNext rest2 then some (y, digitVal d) else none
  | _ => none

/-- Pattern 4 of `extract_date_from_text` (src/fetch_latest.py:290-296),
returning (year, quarter) of the leftmost match. The optional separator
is greedy: consuming it is tried first, and the empty-separator fallback
necessarily fails when a separator character is present. -/
def calQSearch (t : List Char) : Option (Nat × Nat) :=
  searchPos
    (fun prev s =>
      if noWordPrev prev then
        match fourDigits s with
        | some (y, rest) =>
          match rest with
          | c :: rest2 =>
            if c = '-' ∨ c = '_' then
              match qDigitTail y rest2 with
              | some r => some r
              | none => qDigitTail y rest
            else qDigitTail y rest
          | [] => none
        | none => none
      else none)
    none t

/-! #### Pattern 5: `\b(20\d{2})\b` (bare year) -/

/-- Pattern 5 of `extract_date_from_text` (src/fetch_latest.py:299-302),
returning the leftmost standalone year of the form `20xx`. -/
def bareYearSearch (t : List Char) : Option Nat :=
  searchPos
    (fun prev s =>
      if noWordPrev prev then
        match s with
        | a :: b :: c :: d :: rest =>
          if a = '2' ∧ b = '0' ∧ isDigitChar c ∧ isDigitChar d ∧ noWordNext rest then
            some (2000 + digitVal c * 10 + digitVal d)
          else none
        | _ => none
      else none)
    none t

/-! #### The extractor -/

/-- Fiscal-quarter end date (src/fetch_latest.py:270-287): quarter 1 of
fiscal year `y` ends December 31 of year `y-1`; quarters 2, 3, 4 end
March 31, June 30, September 30 of year `y`. -/
def fiscalQuarterEnd (year quarter : Nat) : Date :=
  if quarter = 1 then ⟨year - 1, 12, 31⟩
  else if quarter = 2 then ⟨year, 3, 31⟩
  else if quarter = 3 then ⟨year, 6, 30⟩
  else ⟨year, 9, 30⟩

/-- Patterns 5 of the extractor chain. -/
def extractLast (t : List Char) : Option Date :=
  match bareYearSearch t with
  | some y => some ⟨y, 1, 1⟩
  | none => none

/-- Patterns 4-5 of the extractor chain. A match whose quarter digit is
outside `[1,4]` falls through to the bare-year pattern, as in the code. -/
def extractAfterFY (t : List Char) : Option Date :=
  match calQSearch t with
  | some (y, q) =>
    if 1 ≤ q ∧ q ≤ 4 then some ⟨y, (q - 1) * 3 + 1, 1⟩ else extractLast t
  | none => extractLast t

/-- Patterns 3-5 of the extractor chain. The guard mirrors the Python
`if quarter and year:` truthiness test followed by `if 1 <= quarter <= 4:`;
a fiscal match with quarter `0`, year `0000`, or quarter above 4 falls
through to the calendar-quarter pattern. -/
def extractAfterYM (t : List Char) : Option Date :=
  match fySearch t with
  | some (y, q) =>
    if y ≠ 0 ∧ 1 ≤ q ∧ q ≤ 4 then some (fiscalQuarterEnd y q) else extractAfterFY t
  | none => extractAfterFY t

/-- Patterns 1-5 of the extractor chain over the lowercased text. A
pattern-2 match failing the `1 <= month <= 12 and 2000 <= year <= 2100`
range check falls through to the fiscal patterns without retrying
pattern 2 elsewhere in the text, exactly as the code does. -/
def extractCore (t : List Char) : Option Date :=
  match monthYearSearch t with
  | some (m, y) => some ⟨y, m, 1⟩
  | none =>
    match yearMonthSearch t with
    | some (y, m) =>
      if 1 ≤ m ∧ m ≤ 12 ∧ 2000 ≤ y ∧ y ≤ 2100 then some ⟨y, m, 1⟩ else extractAfterYM t
    | none => extractAfterYM t

/-- Embeds `extract_date_from_text` (src/fetch_latest.py:219-304). -/
def extract_date_from_text (text : String) : Option Date :=
  extractCore (asciiLower text.toList)

/-! ### Proleptic Gregorian calendar

`is_within_months` computes `reference - timedelta(days=months*30)` and
compares `datetime` values. CPython implements `datetime` arithmetic and
comparison over the proleptic Gregorian ordinal (`toordinal`, day number
1 = January 1 of year 1); the functions below reimplement that calendar
with prefix-sum recursions equivalent to CPython's closed-form tables. -/

/-- Leap-year rule of `datetime._is_leap`. -/
def isLeapYear (y : Nat) : Bool := y % 4 = 0 ∧ (y % 100 ≠ 0 ∨ y % 400 = 0)

/-- Month lengths (`datetime._DAYS_IN_MONTH`); months outside `[1,12]` do
not occur in valid dates and get length 0. -/
def daysInMonth (y m : Nat) : Nat :=
  match m with
  | 1 => 31
  | 2 => if isLeapYear y then 29 else 28
  | 3 => 31
  | 4 => 30
  | 5 => 31
  | 6 => 30
  | 7 => 31
  | 8 => 31
  | 9 => 30
  | 10 => 31
  | 11 => 30
  | 12 => 31
  | _ => 0

/-- Number of days of year `y` before month `m`
(`datetime._days_before_month` as a prefix-sum recursion). -/
def daysBeforeMonth (y : Nat) : Nat → Nat
  | 0 => 0
  | 1 => 0
  | m + 1 => daysBeforeMonth y m + daysInMonth y m

/-- Length of year `y` in days. -/
def yearLength (y : Nat) : Nat := if isLeapYear y then 366 else 365

/-- Number of days before January 1 of year `y`
(`datetime._days_before_year` as a prefix-sum recursion; the closed form
`365*(y-1) + (y-1)/4 - (y-1)/100 + (y-1)/400` is proved equal below). -/
def daysBeforeYear : Nat → Nat
  | 0 => 0
  | 1 => 0
  | y + 1 => daysBeforeYear y + yearLength y

/-- `datetime.toordinal`: day number of a date, with January 1 of year 1
as day 1. -/
def dateToOrdinal (a : Date) : Nat :=
  daysBeforeYear a.year + daysBeforeMonth a.year a.month + a.day

/-- Year-finding loop of `datetime.fromordinal`: starting from year `y`,
peel off whole years while the remaining day count exceeds the year
length. The fuel argument dominates the number of peeled years (every
year has at least 365 days). Returns (year, day of year). -/
def ordinalToYear : Nat → Nat → Nat → Nat × Nat
  | 0, y, n => (y, n)
  | fuel + 1, y, n =>
    if n ≤ yearLength y then (y, n) else ordinalToYear fuel (y + 1) (n - yearLength y)

/-- Month-finding loop of `datetime.fromordinal`: peel off whole months
of year `y` from a day-of-year count. Returns (month, day). -/
def ordinalToMonth : Nat → Nat → Nat → Nat → Nat × Nat
  | 0, _, m, k => (m, k)
  | fuel + 1, y, m, k =>
    if k ≤ daysInMonth y m then (m, k) else ordinalToMonth fuel y (m + 1) (k - daysInMonth y m)

/-- `datetime.fromordinal`: the date of a positive day number. -/
def dateFromOrdinal (n : Nat) : Date :=
  let p := ordinalToYear n 1 n
  let q := ordinalToMonth 12 p.1 1 p.2
  ⟨p.1, q.1, q.2⟩

/-- Comparison of `datetime` values: lexicographic on
(year, month, day), as CPython's `datetime.__le__` behaves on the dates
this engine builds (all at midnight). -/
def dateLe (a b : Date) : Bool :=
  if a.year < b.year then true
  else if b.year < a.year then false
  else if a.month < b.month then true
  else if b.month < a.month then false
  else a.day ≤ b.day

/-- A well-formed `datetime` date: positive year, month in `[1,12]`, day
within the month. (CPython also caps the year at 9999; no result below
depends on the cap, so it is not included.) -/
def Date.Valid (a : Date) : Prop :=
  1 ≤ a.year ∧ 1 ≤ a.month ∧ a.month ≤ 12 ∧ 1 ≤ a.day ∧ a.day ≤ daysInMonth a.year a.month

instance (a : Date) : Decidable a.Valid := by unfold Date.Valid; infer_instance

/-- Embeds `is_within_months` (src/fetch_latest.py:434-447):
`cutoff = reference - timedelta(days=months * 30); return dt >= cutoff`.
The `timedelta` subtraction materializes the cutoff date through ordinal
arithmetic, exactly as CPython does; CPython raises `OverflowError` when
the cutoff falls before year 1, which is outside this model (theorems
carry the corresponding side condition). -/
def is_within_months (dt reference : Date) (months : Nat) : Bool :=
  let cutoff := dateFromOrdinal ((dateToOrdinal reference : Int) - months * 30).toNat
  dateLe cutoff dt

/-- Embeds `pick_recent_links` (src/fetch_latest.py:450-477): for each
link, a date is extracted from the text and, failing that, from the URL;
links whose detected date exists and lies within the window are kept, in
order, as (url, text, detected date) triples. -/
def pick_recent_links (links : List (String × String)) (reference_date : Date)
    (within_months : Nat) : List (String × String × Option Date) :=
  match links with
  | [] => []
  | (url, text) :: rest =>
    let date_from_text := extract_date_from_text text
    let date_from_url := extract_date_from_text url
    let detected_date := date_from_text <|> date_from_url
    (match detected_date with
     | some d =>
       if is_within_months d reference_date within_months then [(url, text, some d)] else []
     | none => []) ++ pick_recent_links rest reference_date within_months

/-! ### Claims about the incremental manifest -/

/-- Claim C7: `load_manifest` never raises; a missing manifest file and an
unparseable one both yield the empty structure (empty entry list and empty
`files_by_url` index). Totality holds by construction of the embedding
(`load_manifest` is a total function on every possible read outcome), and
both degenerate inputs return the empty manifest. -/
theorem claim_C7_load_manifest_tolerant :
    load_manifest .missing = ⟨[], []⟩ ∧ load_manifest .corrupt = ⟨[], []⟩ :=
  ⟨rfl, rfl⟩

theorem lookupAssoc_buildStep_none (entries : List Entry) (url : String) :
    ∀ idx : List (String × Entry),
      (∀ e ∈ entries, e.source_url = some url → e.status ≠ some "success") →
      lookupAssoc idx url = none →
      lookupAssoc
        (entries.foldl
          (fun idx e =>
            match e.source_url with
            | some u => if u ≠ "" ∧ e.status = some "success" then updateAssoc idx u e else idx
            | none => idx)
          idx) url = none := by
  induction entries with
  | nil => intro idx _ h0; simpa using h0
  | cons e rest ih =>
    intro idx hno h0
    simp only [List.foldl_cons]
    refine ih _ (fun e' he' => hno e' (List.mem_cons_of_mem _ he')) ?_
    cases hsrc : e.source_url with
    | none => simpa using h0
    | some u =>
      simp only
      by_cases hcond : u ≠ "" ∧ e.status = some "success"
      · rw [if_pos hcond]
        have hne : u ≠ url := by
          intro hequ
          exact hno e (List.mem_cons_self e rest) (hequ ▸ hsrc) hcond.2
        rw [lookupAssoc_updateAssoc_ne idx u url e hne]
        exact h0
      · rw [if_neg hcond]; exact h0

/-- Claim C2: `is_file_in_manifest` is true exactly when the URL is a key
of `files_by_url` and the local path exists on disk; and because
`load_manifest` indexes only `success` entries, a URL all of whose entries
have a non-`success` status (e.g. `download_failed` or `error`) is
reported as not captured. -/
theorem claim_C2_is_file_in_manifest_iff :
    (∀ (disk : String → Bool) (url p : String) (m : Manifest),
      is_file_in_manifest disk url p m = true ↔
        (∃ e, lookupAssoc m.files_by_url url = some e) ∧ disk p = true) ∧
    (∀ (disk : String → Bool) (url p : String) (entries : List Entry),
      (∀ e ∈ entries, e.source_url = some url → e.status ≠ some "success") →
      is_file_in_manifest disk url p (load_manifest (.parsed entries)) = false) := by
  constructor
  · intro disk url p m
    unfold is_file_in_manifest
    cases h : lookupAssoc m.files_by_url url with
    | none => simp [h]
    | some e => simp [h]
  · intro disk url p entries hno
    unfold is_file_in_manifest load_manifest
    have : lookupAssoc (buildFilesByUrl entries) url = none := by
      unfold buildFilesByUrl
      exact lookupAssoc_buildStep_none entries url [] hno rfl
    simp [this]

/-- Concrete instance of claim C2: a manifest whose only entry for a URL
has status `download_failed` does not mark that URL as captured. -/
theorem claim_C2_witness :
    is_file_in_manifest (fun _ => true) "https://example.gov/a.pdf" "data/a.pdf"
      (load_manifest (.parsed
        [{ source_url := some "https://example.gov/a.pdf",
           status := some "download_failed" }])) = false :=
  claim_C2_is_file_in_manifest_iff.2 (fun _ => true) "https://example.gov/a.pdf" "data/a.pdf"
    [{ source_url := some "https://example.gov/a.pdf", status := some "download_failed" }]
    (by decide)

/-- Claim C8: recording a successful download (appending the entry to the
run's entry list and storing it in `files_by_url` under the downloaded
URL, as `handle_uscis_employment_data` does) makes an immediately
subsequent `is_file_in_manifest` call for that URL return true, provided
the file is on disk; and the entry list indeed grew by exactly that
entry. -/
theorem claim_C8_record_success_then_captured (disk : String → Bool) (manifest : Manifest)
    (run_entries : List Entry) (entry : Entry) (u p : String) (hdisk : disk p = true) :
    is_file_in_manifest disk u p (record_uscis_success manifest run_entries entry u).1 = true ∧
      (record_uscis_success manifest run_entries entry u).2 = run_entries ++ [entry] := by
  constructor
  · unfold is_file_in_manifest record_uscis_success
    simp only [lookupAssoc_updateAssoc_self]
    exact hdisk
  · rfl

/-- Concrete instance of claim C8. -/
theorem claim_C8_witness :
    is_file_in_manifest (fun _ => true) "https://example.gov/b.xlsx" "data/b.xlsx"
      (record_uscis_success ⟨[], []⟩ []
        { source_url := some "https://example.gov/b.xlsx", status := some "success" }
        "https://example.gov/b.xlsx").1 = true :=
  (claim_C8_record_success_then_captured (fun _ => true) ⟨[], []⟩ []
    { source_url := some "https://example.gov/b.xlsx", status := some "success" }
    "https://example.gov/b.xlsx" "data/b.xlsx" rfl).1

/-- Claim C1 (refuting theorem): the end-of-run manifest write performed
by `main` is a single direct write to the manifest path, so a crash during
that write can leave the manifest holding a strict prefix of the new
document — a state that is neither the previously persisted contents nor
the new contents. This contradicts the claim that every persistence of the
manifest has the write-to-temp-then-rename structure (only the never-called
`save_manifest_incremental` has it; see
`save_manifest_incremental_crash_safe`). -/
theorem claim_C1_end_of_run_write_not_crash_safe :
    ∃ fs' : FsState,
      CrashReach [(manifestFileName, "old")] (main_manifest_write_ops "new") fs' ∧
        lookupAssoc fs' manifestFileName ≠ some "old" ∧
        lookupAssoc fs' manifestFileName ≠ some "new" := by
  refine ⟨updateAssoc [(manifestFileName, "old")] manifestFileName "n", ?_, ?_, ?_⟩
  · exact CrashReach.midWrite _ manifestFileName "new" "n" [] ⟨"ew", rfl⟩
  · decide
  · decide

/-! ### Claims about date extraction -/

/-- Claim C3: the documented precedence winners on the spec's fixtures:
`"FY2025_Q3"` → 2025-06-30, `"Q1 FY2025"` → 2024-12-31,
`"February 2026"` → 2026-02-01, `"2026-02"` → 2026-02-01,
`"2026Q2"` (no FY marker) → 2026-04-01, `"Report 2026"` → 2026-01-01. -/
theorem claim_C3_fixture_precedence :
    extract_date_from_text "FY2025_Q3" = some ⟨2025, 6, 30⟩ ∧
    extract_date_from_text "Q1 FY2025" = some ⟨2024, 12, 31⟩ ∧
    extract_date_from_text "February 2026" = some ⟨2026, 2, 1⟩ ∧
    extract_date_from_text "2026-02" = some ⟨2026, 2, 1⟩ ∧
    extract_date_from_text "2026Q2" = some ⟨2026, 4, 1⟩ ∧
    extract_date_from_text "Report 2026" = some ⟨2026, 1, 1⟩ :=
  ⟨rfl, rfl, rfl, rfl, rfl, rfl⟩

/-- Claim C9 (refuting theorem): an underscore between a month name and
the year is not accepted by pattern 1 (its separator class is `[-\s]?`),
and because the underscore is a word character it also blocks the word
boundary needed by every later pattern, so `"february_2026"` extracts no
date at all — not 2026-02-01 as claimed. -/
theorem claim_C9_underscore_counterexample :
    extract_date_from_text "february_2026" = none :=
  rfl

/-- Claim C9 (amended): for every text in which pattern 1 finds a month
name joined to a 4-digit year by a hyphen, whitespace, or no separator at
all (underscore is not a supported separator), the extractor returns the
first day of that month in that year; being the first pattern tried, this
takes precedence over all later patterns. The hypothesis `0 < y` records
that `datetime` rejects year 0, which is outside the model. -/
theorem claim_C9_month_name_precedence (text : String) (m y : Nat) (_hy : 0 < y)
    (h : monthYearSearch (asciiLower text.toList) = some (m, y)) :
    extract_date_from_text text = some ⟨y, m, 1⟩ := by
  unfold extract_date_from_text
  simp only [extractCore, h]

/-- Concrete instance of amended claim C9. -/
theorem claim_C9_witness :
    0 < 2026 ∧ monthYearSearch (asciiLower "February 2026".toList) = some (2, 2026) ∧
      extract_date_from_text "February 2026" = some ⟨2026, 2, 1⟩ :=
  ⟨by decide, by decide, claim_C9_month_name_precedence "February 2026" 2 2026 (by decide)
    (by decide)⟩

/-! ### Calendar lemmas

The facts needed about the Gregorian ordinal: the prefix-sum recursions
agree with CPython's closed form, the ordinal respects the lexicographic
date order on valid dates, and `dateFromOrdinal` inverts `dateToOrdinal`. -/

theorem daysBeforeMonth_succ (y m : Nat) (hm : 1 ≤ m) :
    daysBeforeMonth y (m + 1) = daysBeforeMonth y m + daysInMonth y m := by
  cases m with
  | zero => omega
  | succ k => rfl

theorem daysBeforeYear_succ (y : Nat) (hy : 1 ≤ y) :
    daysBeforeYear (y + 1) = daysBeforeYear y + yearLength y := by
  cases y with
  | zero => omega
  | succ k => rfl

theorem yearLength_ge (y : Nat) : 365 ≤ yearLength y := by
  unfold yearLength; split <;> omega

theorem daysBeforeMonth_13 (y : Nat) : daysBeforeMonth y 13 = yearLength y := by
  by_cases h : isLeapYear y <;>
    simp [show (13 : Nat) = 12 + 1 from rfl, show (12 : Nat) = 11 + 1 from rfl,
      show (11 : Nat) = 10 + 1 from rfl, show (10 : Nat) = 9 + 1 from rfl,
      daysBeforeMonth, daysInMonth, yearLength, h]

theorem daysBeforeMonth_mono (y : Nat) {m1 m2 : Nat} (h1 : 1 ≤ m1) (h : m1 ≤ m2) :
    daysBeforeMonth y m1 ≤ daysBeforeMonth y m2 := by
  induction m2 with
  | zero => omega
  | succ k ih =>
    rcases Nat.lt_or_ge k m1 with hk | hk
    · have heq : m1 = k + 1 := by omega
      rw [heq]
    · have hle := ih hk
      have hk1 : 1 ≤ k := le_trans h1 hk
      rw [daysBeforeMonth_succ y k hk1]
      omega

theorem daysBeforeYear_mono {y1 y2 : Nat} (h1 : 1 ≤ y1) (h : y1 ≤ y2) :
    daysBeforeYear y1 ≤ daysBeforeYear y2 := by
  induction y2 with
  | zero => omega
  | succ k ih =>
    rcases Nat.lt_or_ge k y1 with hk | hk
    · have heq : y1 = k + 1 := by omega
      rw [heq]
    · have hle := ih hk
      have hk1 : 1 ≤ k := le_trans h1 hk
      rw [daysBeforeYear_succ k hk1]
      omega

theorem dateOffset_bounds (y m d : Nat) (hm1 : 1 ≤ m) (hm2 : m ≤ 12) (hd1 : 1 ≤ d)
    (hd2 : d ≤ daysInMonth y m) :
    1 ≤ daysBeforeMonth y m + d ∧ daysBeforeMonth y m + d ≤ yearLength y := by
  refine ⟨by omega, ?_⟩
  have h1 : daysBeforeMonth y m + d ≤ daysBeforeMonth y (m + 1) := by
    rw [daysBeforeMonth_succ y m hm1]; omega
  have h2 : daysBeforeMonth y (m + 1) ≤ daysBeforeMonth y 13 :=
    daysBeforeMonth_mono y (by omega) (by omega)
  rw [daysBeforeMonth_13] at h2
  omega

theorem dateToOrdinal_lt_of_year_lt {a b : Date} (ha : a.Valid) (hb : b.Valid)
    (h : a.year < b.year) : dateToOrdinal a < dateToOrdinal b := by
  obtain ⟨hay, ham1, ham2, had1, had2⟩ := ha
  obtain ⟨hby, hbm1, hbm2, hbd1, hbd2⟩ := hb
  have hA := dateOffset_bounds a.year a.month a.day ham1 ham2 had1 had2
  have hB := dateOffset_bounds b.year b.month b.day hbm1 hbm2 hbd1 hbd2
  have h1 : dateToOrdinal a ≤ daysBeforeYear (a.year + 1) := by
    rw [daysBeforeYear_succ a.year hay]
    unfold dateToOrdinal
    omega
  have h2 : daysBeforeYear (a.year + 1) ≤ daysBeforeYear b.year :=
    daysBeforeYear_mono (by omega) (by omega)
  have h3 : daysBeforeYear b.year < dateToOrdinal b := by
    unfold dateToOrdinal
    omega
  omega

theorem dateToOrdinal_lt_of_month_lt {a b : Date} (ha : a.Valid) (hb : b.Valid)
    (hy : a.year = b.year) (h : a.month < b.month) : dateToOrdinal a < dateToOrdinal b := by
  obtain ⟨hay, ham1, ham2, had1, had2⟩ := ha
  obtain ⟨hby, hbm1, hbm2, hbd1, hbd2⟩ := hb
  have h1 : daysBeforeMonth a.year a.month + a.day ≤ daysBeforeMonth a.year (a.month + 1) := by
    rw [daysBeforeMonth_succ a.year a.month ham1]; omega
  have h2 : daysBeforeMonth a.year (a.month + 1) ≤ daysBeforeMonth a.year b.month :=
    daysBeforeMonth_mono a.year (by omega) (by omega)
  unfold dateToOrdinal
  rw [hy] at h1 h2 ⊢
  omega

theorem dateLe_iff_ordinal {a b : Date} (ha : a.Valid) (hb : b.Valid) :
    dateLe a b = true ↔ dateToOrdinal a ≤ dateToOrdinal b := by
  unfold dateLe
  split_ifs with h1 h2 h3 h4
  · simp only [true_iff]
    exact le_of_lt (dateToOrdinal_lt_of_year_lt ha hb h1)
  · simp only [false_iff, not_le]
    exact dateToOrdinal_lt_of_year_lt hb ha h2
  · have hy : a.year = b.year := by omega
    simp only [true_iff]
    exact le_of_lt (dateToOrdinal_lt_of_month_lt ha hb hy h3)
  · have hy : b.year = a.year := by omega
    simp only [false_iff, not_le]
    exact dateToOrdinal_lt_of_month_lt hb ha hy h4
  · have hy : a.year = b.year := by omega
    have hm : a.month = b.month := by omega
    unfold dateToOrdinal
    rw [hy, hm]
    simp only [decide_eq_true_eq]
    omega

theorem ordinalToYear_spec : ∀ (fuel y n : Nat), 1 ≤ y → 1 ≤ n → n ≤ fuel →
    1 ≤ (ordinalToYear fuel y n).2 ∧
    (ordinalToYear fuel y n).2 ≤ yearLength (ordinalToYear fuel y n).1 ∧
    daysBeforeYear (ordinalToYear fuel y n).1 + (ordinalToYear fuel y n).2 =
      daysBeforeYear y + n ∧
    1 ≤ (ordinalToYear fuel y n).1 := by
  intro fuel
  induction fuel with
  | zero => intro y n _ hn hf; omega
  | succ k ih =>
    intro y n hy hn hf
    simp only [ordinalToYear]
    split
    · next h => exact ⟨hn, h, rfl, hy⟩
    · next h =>
      have h365 := yearLength_ge y
      have hrec := ih (y + 1) (n - yearLength y) (by omega) (by omega) (by omega)
      obtain ⟨i1, i2, i3, i4⟩ := hrec
      refine ⟨i1, i2, ?_, i4⟩
      rw [daysBeforeYear_succ y hy] at i3
      omega

theorem daysInMonth_eq_zero_of_gt (y m : Nat) (h : 13 ≤ m) : daysInMonth y m = 0 := by
  obtain ⟨k, rfl⟩ : ∃ k, m = k + 13 := ⟨m - 13, by omega⟩
  rfl

theorem ordinalToMonth_spec : ∀ (fuel y m k : Nat), 1 ≤ m → 1 ≤ k →
    daysBeforeMonth y m + k ≤ daysBeforeMonth y (m + fuel) →
    1 ≤ (ordinalToMonth fuel y m k).2 ∧
    (ordinalToMonth fuel y m k).2 ≤ daysInMonth y (ordinalToMonth fuel y m k).1 ∧
    daysBeforeMonth y (ordinalToMonth fuel y m k).1 + (ordinalToMonth fuel y m k).2 =
      daysBeforeMonth y m + k ∧
    1 ≤ (ordinalToMonth fuel y m k).1 := by
  intro fuel
  induction fuel with
  | zero =>
    intro y m k _ hk hbound
    exfalso
    simp only [Nat.add_zero] at hbound
    omega
  | succ f ih =>
    intro y m k hm hk hbound
    simp only [ordinalToMonth]
    split
    · next h => exact ⟨hk, h, rfl, hm⟩
    · next h =>
      have hstep : daysBeforeMonth y (m + 1) = daysBeforeMonth y m + daysInMonth y m :=
        daysBeforeMonth_succ y m hm
      have hrange : m + (f + 1) = (m + 1) + f := by omega
      rw [hrange] at hbound
      have hrec := ih y (m + 1) (k - daysInMonth y m) (by omega) (by omega) (by omega)
      obtain ⟨i1, i2, i3, i4⟩ := hrec
      refine ⟨i1, i2, ?_, i4⟩
      omega

theorem dateFromOrdinal_spec (n : Nat) (hn : 1 ≤ n) :
    dateToOrdinal (dateFromOrdinal n) = n ∧ (dateFromOrdinal n).Valid := by
  have hy := ordinalToYear_spec n 1 n (le_refl 1) hn (le_refl n)
  obtain ⟨h1, h2, h3, h4⟩ := hy
  have hdby1 : daysBeforeYear 1 = 0 := rfl
  have hdbm1 : daysBeforeMonth (ordinalToYear n 1 n).1 1 = 0 := rfl
  have h13 := daysBeforeMonth_13 (ordinalToYear n 1 n).1
  have hbound : daysBeforeMonth (ordinalToYear n 1 n).1 1 + (ordinalToYear n 1 n).2 ≤
      daysBeforeMonth (ordinalToYear n 1 n).1 13 := by
    omega
  have hm := ordinalToMonth_spec 12 (ordinalToYear n 1 n).1 1 (ordinalToYear n 1 n).2
    (le_refl 1) h1 hbound
  obtain ⟨g1, g2, g3, g4⟩ := hm
  have hq12 : (ordinalToMonth 12 (ordinalToYear n 1 n).1 1 (ordinalToYear n 1 n).2).1 ≤ 12 := by
    by_contra hgt
    have hz := daysInMonth_eq_zero_of_gt (ordinalToYear n 1 n).1
      (ordinalToMonth 12 (ordinalToYear n 1 n).1 1 (ordinalToYear n 1 n).2).1 (by omega)
    omega
  constructor
  · show daysBeforeYear (ordinalToYear n 1 n).1 +
      daysBeforeMonth (ordinalToYear n 1 n).1
        (ordinalToMonth 12 (ordinalToYear n 1 n).1 1 (ordinalToYear n 1 n).2).1 +
      (ordinalToMonth 12 (ordinalToYear n 1 n).1 1 (ordinalToYear n 1 n).2).2 = n
    omega
  · show 1 ≤ (ordinalToYear n 1 n).1 ∧
      1 ≤ (ordinalToMonth 12 (ordinalToYear n 1 n).1 1 (ordinalToYear n 1 n).2).1 ∧
      (ordinalToMonth 12 (ordinalToYear n 1 n).1 1 (ordinalToYear n 1 n).2).1 ≤ 12 ∧
      1 ≤ (ordinalToMonth 12 (ordinalToYear n 1 n).1 1 (ordinalToYear n 1 n).2).2 ∧
      (ordinalToMonth 12 (ordinalToYear n 1 n).1 1 (ordinalToYear n 1 n).2).2 ≤
        daysInMonth (ordinalToYear n 1 n).1
          (ordinalToMonth 12 (ordinalToYear n 1 n).1 1 (ordinalToYear n 1 n).2).1
    exact ⟨h4, g4, hq12, g1, g2⟩

/-! ### Claims about the recency window -/

/-- Claim C5: `is_within_months dt reference months` is true exactly when
`dt` is on or after the point 30·months days before `reference` on the
ordinal timeline — fixed 30-day-month arithmetic, not calendar-accurate
month subtraction. The side conditions record that `dt` is a well-formed
date and that the cutoff does not underflow `datetime`'s range (CPython
would raise `OverflowError` there). -/
theorem claim_C5_window_arithmetic (dt reference : Date) (months : Nat) (hdt : dt.Valid)
    (hcut : 1 ≤ (dateToOrdinal reference : Int) - months * 30) :
    is_within_months dt reference months = true ↔
      (dateToOrdinal reference : Int) - months * 30 ≤ (dateToOrdinal dt : Int) := by
  unfold is_within_months
  have hc1 : 1 ≤ ((dateToOrdinal reference : Int) - months * 30).toNat := by omega
  have hrt := dateFromOrdinal_spec ((dateToOrdinal reference : Int) - months * 30).toNat hc1
  rw [dateLe_iff_ordinal hrt.2 hdt, hrt.1]
  omega

/-- Concrete instance of claim C5: January 15 of year 2 lies within one
30-day month of February 1 of year 2. -/
theorem claim_C5_witness :
    (Date.mk 2 1 15).Valid ∧
      1 ≤ (dateToOrdinal ⟨2, 2, 1⟩ : Int) - 1 * 30 ∧
      (is_within_months ⟨2, 1, 15⟩ ⟨2, 2, 1⟩ 1 = true ↔
        (dateToOrdinal ⟨2, 2, 1⟩ : Int) - 1 * 30 ≤ (dateToOrdinal ⟨2, 1, 15⟩ : Int)) :=
  ⟨by decide, by decide, claim_C5_window_arithmetic ⟨2, 1, 15⟩ ⟨2, 2, 1⟩ 1 (by decide) (by decide)⟩

/-- Claim C4: whenever the fiscal patterns (FY marker and quarter digit,
in either order) match with year `N` and quarter `q ∈ [1,4]`, and no
higher-precedence pattern fires (pattern 1 finds no month name; pattern 2
either finds no raw match or only one failing its range check, which the
code falls through), the extractor returns the end date of that fiscal
quarter: December 31 of `N-1` for `q = 1` and March 31 / June 30 /
September 30 of `N` for `q = 2, 3, 4`. The hypothesis `2 ≤ N` keeps the
constructed `datetime` (year `N-1` for `q = 1`) inside `datetime`'s
supported year range. -/
theorem claim_C4_fiscal_quarter_end (text : String) (N q : Nat)
    (h1 : monthYearSearch (asciiLower text.toList) = none)
    (h2 : ∀ y m, yearMonthSearch (asciiLower text.toList) = some (y, m) →
      ¬(1 ≤ m ∧ m ≤ 12 ∧ 2000 ≤ y ∧ y ≤ 2100))
    (h3 : fySearch (asciiLower text.toList) = some (N, q))
    (hq1 : 1 ≤ q) (hq4 : q ≤ 4) (hN : 2 ≤ N) :
    (q = 1 → extract_date_from_text text = some ⟨N - 1, 12, 31⟩) ∧
    (q = 2 → extract_date_from_text text = some ⟨N, 3, 31⟩) ∧
    (q = 3 → extract_date_from_text text = some ⟨N, 6, 30⟩) ∧
    (q = 4 → extract_date_from_text text = some ⟨N, 9, 30⟩) := by
  have key : extract_date_from_text text = some (fiscalQuarterEnd N q) := by
    unfold extract_date_from_text
    simp only [extractCore, h1]
    cases hym : yearMonthSearch (asciiLower text.toList) with
    | none =>
      simp only [extractAfterYM, h3]
      rw [if_pos ⟨by omega, hq1, hq4⟩]
    | some p =>
      obtain ⟨y, m⟩ := p
      simp only
      rw [if_neg (h2 y m hym)]
      simp only [extractAfterYM, h3]
      rw [if_pos ⟨by omega, hq1, hq4⟩]
  refine ⟨fun hq => ?_, fun hq => ?_, fun hq => ?_, fun hq => ?_⟩ <;>
    (subst hq; rw [key]; rfl)

/-- Concrete instance of claim C4 at quarter 3 of fiscal year 2025. -/
theorem claim_C4_witness :
    fySearch (asciiLower "FY2025_Q3".toList) = some (2025, 3) ∧
      extract_date_from_text "FY2025_Q3" = some ⟨2025, 6, 30⟩ := by
  refine ⟨by decide, ?_⟩
  refine (claim_C4_fiscal_quarter_end "FY2025_Q3" 2025 3 (by decide) ?_ (by decide)
    (by decide) (by decide) (by decide)).2.2.1 rfl
  intro y m hym
  rw [show yearMonthSearch (asciiLower "FY2025_Q3".toList) = none from by decide] at hym
  exact Option.noConfusion hym

/-- Claim C6: every element of `pick_recent_links` output carries a date
(`some d`), that date satisfies `is_within_months` for the given reference
and window, and it was extracted from the candidate's text or URL — so
candidates from which no date can be extracted never appear in the
output. -/
theorem claim_C6_window_filter (links : List (String × String)) (reference : Date)
    (months : Nat) :
    ∀ x ∈ pick_recent_links links reference months,
      ∃ d : Date, x.2.2 = some d ∧ is_within_months d reference months = true ∧
        (extract_date_from_text x.2.1 = some d ∨ extract_date_from_text x.1 = some d) := by
  induction links with
  | nil => intro x hx; simp [pick_recent_links] at hx
  | cons hd rest ih =>
    obtain ⟨url, text⟩ := hd
    intro x hx
    simp only [pick_recent_links] at hx
    rw [List.mem_append] at hx
    rcases hx with hx | hx
    · cases htext : extract_date_from_text text with
      | some d =>
        rw [htext] at hx
        simp only [Option.some_orElse] at hx
        by_cases hwin : is_within_months d reference months = true
        · simp only [hwin, if_true, List.mem_singleton] at hx
          subst hx
          exact ⟨d, rfl, hwin, Or.inl htext⟩
        · simp only [hwin] at hx
          simp at hx
      | none =>
        rw [htext] at hx
        simp only [Option.none_orElse] at hx
        cases hurl : extract_date_from_text url with
        | some d =>
          rw [hurl] at hx
          by_cases hwin : is_within_months d reference months = true
          · simp only [hwin, if_true, List.mem_singleton] at hx
            subst hx
            exact ⟨d, rfl, hwin, Or.inr hurl⟩
          · simp only [hwin] at hx
            simp at hx
        | none =>
          rw [hurl] at hx
          simp at hx
    · exact ih x hx

/-- Concrete instance of claim C6. -/
theorem claim_C6_witness :
    ∃ d : Date,
      (("https://x.gov/a", "february 0002", some (Date.mk 2 2 1)) :
          String × String × Option Date).2.2 = some d ∧
      is_within_months d ⟨2, 3, 1⟩ 12 = true ∧
      (extract_date_from_text "february 0002" = some d ∨
        extract_date_from_text "https://x.gov/a" = some d) :=
  claim_C6_window_filter [("https://x.gov/a", "february 0002")] ⟨2, 3, 1⟩ 12
    ("https://x.gov/a", "february 0002", some ⟨2, 2, 1⟩) (by decide)

/-- Claim C10: in `pick_recent_links`, a date extracted from the link
text is always the detected date, and the URL is consulted only when
extraction from the text yields nothing — spelled out as the two
evaluation equations of the head candidate. -/
theorem claim_C10_text_date_preferred (url text : String) (rest : List (String × String))
    (reference : Date) (months : Nat) :
    (∀ d : Date, extract_date_from_text text = some d →
      pick_recent_links ((url, text) :: rest) reference months =
        (if is_within_months d reference months then [(url, text, some d)] else []) ++
          pick_recent_links rest reference months) ∧
    (extract_date_from_text text = none →
      pick_recent_links ((url, text) :: rest) reference months =
        (match extract_date_from_text url with
         | some d => if is_within_months d reference months then [(url, text, some d)] else []
         | none => []) ++ pick_recent_links rest reference months) := by
  constructor
  · intro d h
    simp only [pick_recent_links, h, Option.some_orElse]
  · intro h
    simp only [pick_recent_links, h, Option.none_orElse]

/-- Concrete instance of claim C10: both the URL and the text carry an
extractable date, and the text's date (February 1 of year 2) is the one
the candidate is kept under, not the URL's (May 1, 2025). -/
theorem claim_C10_witness :
    extract_date_from_text "february 0002" = some ⟨2, 2, 1⟩ ∧
      extract_date_from_text "2025-05.pdf" = some ⟨2025, 5, 1⟩ ∧
      pick_recent_links [("2025-05.pdf", "february 0002")] ⟨2, 3, 1⟩ 12 =
        (if is_within_months ⟨2, 2, 1⟩ ⟨2, 3, 1⟩ 12 then
          [("2025-05.pdf", "february 0002", some ⟨2, 2, 1⟩)] else []) ++
          pick_recent_links [] ⟨2, 3, 1⟩ 12 :=
  ⟨by decide, by decide,
    (claim_C10_text_date_preferred "2025-05.pdf" "february 0002" [] ⟨2, 3, 1⟩ 12).1
      ⟨2, 2, 1⟩ (by decide)⟩

end Fetch
